import Mathlib

/-!
Verification of the call-center orchestration layer: a shallow embedding of
the call state machine (`api/routes/calls.py`, `api/routes/sip_integration.py`),
the agent-instance supervisor and scaling controller
(`api/routes/agent_management.py`) and the job router (`agent_worker.py`),
together with theorems settling the specified behavioural claims.

Conventions of the embedding:
* Timestamps (`datetime.utcnow()`) are natural numbers counting microseconds;
  a Python `timedelta.total_seconds()` comparison `delta > K` becomes
  `K * 1000000 < delta` on the microsecond difference, and `int(total_seconds())`
  (truncation towards zero, which on the non-negative differences arising here
  is the floor) becomes natural floor division by `1000000`.
* Optional fields (`Optional[...] = None`) become `Option` fields.
* Python dictionaries are embedded either as lookup functions
  (`String → Option _`) where only lookup/assignment matters, or as
  association lists where the code iterates over `.values()`.
* Each `async` handler is embedded as a pure state transformer; the database
  is passed and returned explicitly.  Background tasks queued by a handler are
  modelled as running to completion before the next request is processed
  (sequential event-loop semantics).
-/

namespace CallCenter

/-- Call record, after `models.Call`: the document persisted for each call.
`sentiment_score` is a float in the source; it is opaque here (never read or
written by any modelled operation), so it is carried as an uninterpreted
optional integer purely for frame conditions. -/
structure Call where
  id : String
  project_id : String
  campaign_id : Option String := none
  contact_id : Option String := none
  ai_agent_id : Option String := none
  room_name : Option String := none
  participant_id : Option String := none
  sip_call_id : Option String := none
  call_type : String
  phone_number : String
  call_status : String := "initiated"
  started_at : Nat
  answered_at : Option Nat := none
  ended_at : Option Nat := none
  duration_seconds : Option Nat := none
  recording_url : Option String := none
  transcript : Option String := none
  sentiment_score : Option Int := none
  call_summary : Option String := none
  key_points : List String := []
  action_items : List String := []
  call_outcome : Option String := none
  created_at : Nat := 0
deriving Repr, DecidableEq

/-- The terminal call statuses of the spec's state machine:
{completed, failed, no_answer, transferred}. -/
def terminalCallStatuses : List String :=
  ["completed", "failed", "no_answer", "transferred"]

/-- Python truthiness of an `Optional[str]`: `None` and `""` are falsy. -/
def strTruthy : Option String → Bool
  | none => false
  | some s => s != ""

/-- Python `int((ended - answered).total_seconds())` for microsecond timestamps
`a ≤ e`: truncation towards zero of a non-negative value, i.e. floor division
of the microsecond difference by 1000000. -/
def pyDurationSeconds (e a : Nat) : Nat := (e - a) / 1000000

/-- Handler `start_call` (calls.py:103-116): unconditionally sets status `ringing`,
records the room binding and stamps `started_at`.  (The 404 branch for a
missing call is the caller's concern; this is the transform applied to the
fetched record.) -/
def start_call (c : Call) (room_name : String) (participant_id : Option String)
    (now : Nat) : Call :=
  { c with call_status := "ringing", room_name := some room_name,
           participant_id := participant_id, started_at := now }

/-- Handler `answer_call` (calls.py:119-130): unconditionally sets status `answered`
and stamps `answered_at`. -/
def answer_call (c : Call) (now : Nat) : Call :=
  { c with call_status := "answered", answered_at := some now }

/-- Handler `end_call` (calls.py:133-152): unconditionally sets status `completed` and
`ended_at`; if `answered_at` is set, recomputes `duration_seconds`; records the
outcome only when the argument Python-truthy. -/
def end_call (c : Call) (now : Nat) (call_outcome : Option String) : Call :=
  let c1 := { c with call_status := "completed", ended_at := some now }
  let c2 :=
    match c1.answered_at with
    | some a => { c1 with duration_seconds := some (pyDurationSeconds now a) }
    | none => c1
  if strTruthy call_outcome then { c2 with call_outcome := call_outcome } else c2

/-- Handler `fail_call` (calls.py:155-170): unconditionally sets status `failed` and
`ended_at`; records `"Failed: {reason}"` when a truthy reason is given. -/
def fail_call (c : Call) (now : Nat) (reason : Option String) : Call :=
  let c1 := { c with call_status := "failed", ended_at := some now }
  match reason with
  | some r => if r != "" then { c1 with call_outcome := some ("Failed: " ++ r) } else c1
  | none => c1

/-- Character-list model of Python `str.startswith`. -/
def strStartsWith : List Char → List Char → Bool
  | _, [] => true
  | [], _ :: _ => false
  | c :: cs, p :: ps => c == p && strStartsWith cs ps

/-- The participant-identity tag checked by the SIP webhook handlers. -/
def customerTag : List Char := 'c' :: 'u' :: 's' :: 't' :: 'o' :: 'm' :: 'e' :: 'r' :: '-' :: []

/-- Webhook helper `handle_participant_joined` (sip_integration.py:401-410): marks the call
answered only when the participant identity starts with `"customer-"`. -/
def handle_participant_joined (c : Call) (identity : List Char) (now : Nat) : Call :=
  if strStartsWith identity customerTag then
    { c with call_status := "answered", answered_at := some now }
  else c

/-- Webhook helper `handle_participant_left` (sip_integration.py:413-427): marks the call
completed (computing the duration when answered) only when the participant
identity starts with `"customer-"`. -/
def handle_participant_left (c : Call) (identity : List Char) (now : Nat) : Call :=
  if strStartsWith identity customerTag then
    let c1 := { c with call_status := "completed", ended_at := some now }
    match c1.answered_at with
    | some a => { c1 with duration_seconds := some (pyDurationSeconds now a) }
    | none => c1
  else c

/-- A concrete call already in the terminal status `failed`, with a recorded
outcome, used to exercise the transition endpoints. -/
def exFailedCall : Call :=
  { id := "call-1", project_id := "proj-1", call_type := "outbound",
    phone_number := "+15550100", call_status := "failed",
    started_at := 1000000, ended_at := some 2000000,
    call_outcome := some "Failed: busy" }

/-- A concrete ringing call that was never answered. -/
def exUnansweredCall : Call :=
  { id := "call-2", project_id := "proj-1", call_type := "outbound",
    phone_number := "+15550101", call_status := "ringing",
    started_at := 1000000 }

/-- Floor of a difference of microsecond timestamps, in whole seconds,
computed as a rational floor, equals the natural floor division performed by
the embedded code. -/
theorem floor_micros_eq_div (a b : Nat) (h : a ≤ b) :
    ⌊((b : ℚ) - (a : ℚ)) / 1000000⌋₊ = (b - a) / 1000000 := by
  rw [← Nat.cast_sub h]
  rw [show ((1000000 : ℚ)) = ((1000000 : ℕ) : ℚ) by norm_num]
  rw [Nat.floor_div_nat, Nat.floor_natCast]

/-- C1 counterexample: the claim that a transition on a terminal call is a
no-op is false — `end()` on a call whose status is the terminal `failed`
changes its status and its `ended_at` timestamp. -/
theorem end_call_on_failed_call_overwrites :
    exFailedCall.call_status ∈ terminalCallStatuses ∧
      (end_call exFailedCall 9000000 none).call_status ≠ exFailedCall.call_status ∧
      (end_call exFailedCall 9000000 none).ended_at ≠ exFailedCall.ended_at := by
  refine ⟨by decide, ?_, ?_⟩ <;> decide

/-- C1 (amended): the status-transition endpoints perform no terminal-state
check.  On any call whose status is terminal, `end()` still overwrites status
to `completed` and re-stamps `ended_at`, `answer()` overwrites to `answered`,
`fail()` overwrites to `failed`, and `start()` overwrites to `ringing`; none
reports a conflict (each returns success after saving). -/
theorem transitions_ignore_terminal_status (c : Call) (now : Nat) (rn : String)
    (h : c.call_status ∈ terminalCallStatuses) :
    (end_call c now none).call_status = "completed" ∧
    (end_call c now none).ended_at = some now ∧
    (answer_call c now).call_status = "answered" ∧
    (answer_call c now).answered_at = some now ∧
    (fail_call c now none).call_status = "failed" ∧
    (fail_call c now none).ended_at = some now ∧
    (start_call c rn none now).call_status = "ringing" := by
  refine ⟨?_, ?_, rfl, rfl, rfl, rfl, rfl⟩ <;>
    · unfold end_call
      cases c.answered_at <;> simp [strTruthy]

theorem transitions_ignore_terminal_status_witness :
    exFailedCall.call_status ∈ terminalCallStatuses ∧
      ((end_call exFailedCall 9000000 none).call_status = "completed" ∧
       (end_call exFailedCall 9000000 none).ended_at = some 9000000 ∧
       (answer_call exFailedCall 9000000).call_status = "answered" ∧
       (answer_call exFailedCall 9000000).answered_at = some 9000000 ∧
       (fail_call exFailedCall 9000000 none).call_status = "failed" ∧
       (fail_call exFailedCall 9000000 none).ended_at = some 9000000 ∧
       (start_call exFailedCall "room-1" none 9000000).call_status = "ringing") :=
  ⟨by decide, transitions_ignore_terminal_status exFailedCall 9000000 "room-1" (by decide)⟩

/-- C5: on a call on which `answer()` has been performed at time `t1`, a
subsequent `end()` at time `t2` sets status `completed`, stamps `ended_at`,
and sets `duration_seconds` to the floor of `ended_at - answered_at` in whole
seconds. -/
theorem end_after_answer_sets_floor_duration (c : Call) (t1 t2 : Nat)
    (o : Option String) (h : t1 ≤ t2) :
    (end_call (answer_call c t1) t2 o).call_status = "completed" ∧
    (end_call (answer_call c t1) t2 o).ended_at = some t2 ∧
    (end_call (answer_call c t1) t2 o).duration_seconds =
      some ⌊((t2 : ℚ) - (t1 : ℚ)) / 1000000⌋₊ := by
  rw [floor_micros_eq_div t1 t2 h]
  unfold end_call answer_call
  cases ho : strTruthy o <;> simp [ho, pyDurationSeconds]

theorem end_after_answer_sets_floor_duration_witness :
    (1000000 ≤ 43500000) ∧
      ((end_call (answer_call exFailedCall 1000000) 43500000 (some "resolved")).call_status = "completed" ∧
       (end_call (answer_call exFailedCall 1000000) 43500000 (some "resolved")).ended_at = some 43500000 ∧
       (end_call (answer_call exFailedCall 1000000) 43500000 (some "resolved")).duration_seconds =
         some ⌊((43500000 : ℚ) - ((1000000 : Nat) : ℚ)) / 1000000⌋₊) :=
  ⟨by norm_num,
    end_after_answer_sets_floor_duration exFailedCall 1000000 43500000 (some "resolved") (by norm_num)⟩

/-- C9: the SIP webhook handlers act only on participants whose identity
starts with `"customer-"`: for any other identity both handlers leave the
call record entirely unchanged, while for a customer identity
`participant_joined` sets `answered`/`answered_at` and `participant_left`
sets `completed`/`ended_at`. -/
theorem webhook_customer_tag_guard (c : Call) (identity : List Char) (now : Nat) :
    (strStartsWith identity customerTag = false →
      handle_participant_joined c identity now = c ∧
      handle_participant_left c identity now = c) ∧
    (strStartsWith identity customerTag = true →
      (handle_participant_joined c identity now).call_status = "answered" ∧
      (handle_participant_joined c identity now).answered_at = some now ∧
      (handle_participant_left c identity now).call_status = "completed" ∧
      (handle_participant_left c identity now).ended_at = some now) := by
  constructor
  · intro hfalse
    unfold handle_participant_joined handle_participant_left
    simp [hfalse]
  · intro htrue
    unfold handle_participant_joined handle_participant_left
    cases c.answered_at <;> simp [htrue]

/-- C10: `end()` on a call whose `answered_at` is unset sets status
`completed` and `ended_at`, leaves `duration_seconds` unset (it is not
computed from `started_at` nor defaulted to 0), and changes no field other
than `call_status`, `ended_at` and (optionally) `call_outcome`. -/
theorem end_call_unanswered_frame (c : Call) (now : Nat) (o : Option String)
    (h1 : c.answered_at = none) (h2 : c.duration_seconds = none) :
    (end_call c now o).call_status = "completed" ∧
    (end_call c now o).ended_at = some now ∧
    (end_call c now o).duration_seconds = none ∧
    (end_call c now o).id = c.id ∧
    (end_call c now o).project_id = c.project_id ∧
    (end_call c now o).campaign_id = c.campaign_id ∧
    (end_call c now o).contact_id = c.contact_id ∧
    (end_call c now o).ai_agent_id = c.ai_agent_id ∧
    (end_call c now o).room_name = c.room_name ∧
    (end_call c now o).participant_id = c.participant_id ∧
    (end_call c now o).sip_call_id = c.sip_call_id ∧
    (end_call c now o).call_type = c.call_type ∧
    (end_call c now o).phone_number = c.phone_number ∧
    (end_call c now o).started_at = c.started_at ∧
    (end_call c now o).answered_at = c.answered_at ∧
    (end_call c now o).recording_url = c.recording_url ∧
    (end_call c now o).transcript = c.transcript ∧
    (end_call c now o).sentiment_score = c.sentiment_score ∧
    (end_call c now o).call_summary = c.call_summary ∧
    (end_call c now o).key_points = c.key_points ∧
    (end_call c now o).action_items = c.action_items ∧
    (end_call c now o).created_at = c.created_at := by
  unfold end_call
  cases ho : strTruthy o <;> simp [h1, h2, ho]

theorem end_call_unanswered_frame_witness :
    (exUnansweredCall.answered_at = none ∧ exUnansweredCall.duration_seconds = none) ∧
      ((end_call exUnansweredCall 7000000 none).call_status = "completed" ∧
       (end_call exUnansweredCall 7000000 none).ended_at = some 7000000 ∧
       (end_call exUnansweredCall 7000000 none).duration_seconds = none) :=
  ⟨⟨rfl, rfl⟩,
    by
      obtain ⟨a, b, c, -⟩ := end_call_unanswered_frame exUnansweredCall 7000000 none rfl rfl
      exact ⟨a, b, c⟩⟩

/-! ## Agent instance supervisor (`api/routes/agent_management.py`) -/

/-- A deployed worker instance, after the `AgentInstance` pydantic model of
`agent_management.py` (resource_usage is never read or written by the
modelled operations and is omitted). -/
structure AgentInstanceS where
  instance_id : String
  agent_id : String
  project_id : String
  deployment_type : String
  status : String
  started_at : Nat
  process_id : Option Nat := none
  last_heartbeat : Option Nat := none
deriving Repr, DecidableEq

/-- The registry `agent_instances`: an insertion-ordered dictionary from
instance id to instance, embedded as an association list. -/
abbrev Registry := List (String × AgentInstanceS)

/-- Helper `update_instance_status` (agent_management.py:471-499), the health poll
for one instance.  `alive pid` embeds `os.kill(pid, 0)` succeeding.  A live
process refreshes the heartbeat and promotes `starting` to `running` after 30
seconds; a missing process forces `stopped`; a missing pid forces `error`
unless the status is already `stopped` or `error`. -/
def update_instance_status (alive : Nat → Bool) (now : Nat)
    (inst : AgentInstanceS) : AgentInstanceS :=
  match inst.process_id with
  | some pid =>
    if alive pid then
      let inst1 := { inst with last_heartbeat := some now }
      if inst1.status == "starting" && decide (30 * 1000000 < now - inst1.started_at) then
        { inst1 with status := "running" }
      else inst1
    else { inst with status := "stopped" }
  | none =>
    if inst.status == "stopped" || inst.status == "error" then inst
    else { inst with status := "error" }

/-- The per-instance body of one `monitor_agent_instances` tick
(agent_management.py:512-520): health poll, then the stale-heartbeat check
(`time_since_heartbeat > 300` seconds forces `error`).  No signal is ever sent
to the process here. -/
def monitorStepInstance (alive : Nat → Bool) (now : Nat)
    (inst : AgentInstanceS) : AgentInstanceS :=
  let inst1 := update_instance_status alive now inst
  match inst1.last_heartbeat with
  | some hb =>
    if 300 * 1000000 < now - hb then { inst1 with status := "error" } else inst1
  | none => inst1

/-- One iteration of the `monitor_agent_instances` loop
(agent_management.py:502-525): every registered instance of the agent is
health-polled and stale-checked. -/
def monitor_tick (alive : Nat → Bool) (now : Nat) (agent_id : String)
    (reg : Registry) : Registry :=
  reg.map fun p =>
    if p.2.agent_id == agent_id then (p.1, monitorStepInstance alive now p.2) else p

/-- The first status write of `stop_agent_instance`
(agent_management.py:431-439): the instance is re-marked `stopping`
unconditionally, whatever its current status. -/
def stopMarkStopping (inst : AgentInstanceS) : AgentInstanceS :=
  { inst with status := "stopping" }

/-- The final status write of `stop_agent_instance`
(agent_management.py:458): the instance is marked `stopped` after the
termination signals. -/
def stopMarkStopped (inst : AgentInstanceS) : AgentInstanceS :=
  { inst with status := "stopped" }

/-- A concrete instance in the terminal status `error` whose process has
exited. -/
def exErrorInstance : AgentInstanceS :=
  { instance_id := "agent-1-0", agent_id := "agent-1", project_id := "proj-1",
    deployment_type := "worker", status := "error", started_at := 0,
    process_id := some 41, last_heartbeat := some 0 }

/-- C2 counterexample: `{stopped, error}` are not terminal for an instance.
A health poll on an instance already in status `error` whose process has
exited overwrites the status to `stopped`. -/
theorem poll_moves_error_instance_to_stopped :
    exErrorInstance.status = "error" ∧
      (update_instance_status (fun _ => false) 1000000 exErrorInstance).status ≠
        exErrorInstance.status := by
  exact ⟨rfl, by decide⟩

/-- C2 (amended): supervisor status writes keep an instance inside
`{running, stopping, stopped, error}` once it has left `starting` — in
particular no operation ever writes `starting`, so `running → starting` is
impossible — but `stopped` and `error` are not terminal: the health poll
moves a dead-process `error` instance to `stopped` (see the counterexample),
the monitor stale-heartbeat check moves a stale `stopped` instance to
`error`, and `stop` re-marks any registered instance `stopping` then
`stopped`. -/
theorem supervisor_status_never_reenters_starting (alive : Nat → Bool) (now : Nat)
    (inst : AgentInstanceS)
    (h : inst.status ∈ ["running", "stopping", "stopped", "error"]) :
    (update_instance_status alive now inst).status ∈
        ["running", "stopping", "stopped", "error"] ∧
    (monitorStepInstance alive now inst).status ∈
        ["running", "stopping", "stopped", "error"] ∧
    (stopMarkStopping inst).status ∈ ["running", "stopping", "stopped", "error"] ∧
    (stopMarkStopped inst).status ∈ ["running", "stopping", "stopped", "error"] := by
  have h' : inst.status = "running" ∨ inst.status = "stopping" ∨
      inst.status = "stopped" ∨ inst.status = "error" := by simpa using h
  have hupd : (update_instance_status alive now inst).status ∈
      ["running", "stopping", "stopped", "error"] := by
    unfold update_instance_status
    rcases hpid : inst.process_id with - | pid
    · simp only [hpid]
      rcases h' with h' | h' | h' | h' <;> simp [h']
    · simp only [hpid]
      by_cases ha : alive pid = true
      · have hns : (inst.status == "starting") = false := by
          rcases h' with h' | h' | h' | h' <;> simp [h']
        simp [ha, hns]
        rcases h' with h' | h' | h' | h' <;> simp [h']
      · simp [Bool.eq_false_iff.mpr ha]
  refine ⟨hupd, ?_, by simp [stopMarkStopping], by simp [stopMarkStopped]⟩
  unfold monitorStepInstance
  rcases hhb : (update_instance_status alive now inst).last_heartbeat with - | hb
  · simpa [hhb] using hupd
  · simp only [hhb]
    by_cases hst : 300 * 1000000 < now - hb
    · simp [hst]
    · simpa [hst] using hupd

theorem supervisor_status_never_reenters_starting_witness :
    exErrorInstance.status ∈ ["running", "stopping", "stopped", "error"] ∧
      ((update_instance_status (fun _ => true) 1000000 exErrorInstance).status ∈
          ["running", "stopping", "stopped", "error"] ∧
       (monitorStepInstance (fun _ => true) 1000000 exErrorInstance).status ∈
          ["running", "stopping", "stopped", "error"] ∧
       (stopMarkStopping exErrorInstance).status ∈
          ["running", "stopping", "stopped", "error"] ∧
       (stopMarkStopped exErrorInstance).status ∈
          ["running", "stopping", "stopped", "error"]) :=
  ⟨by decide,
    supervisor_status_never_reenters_starting (fun _ => true) 1000000 exErrorInstance
      (by decide)⟩

/-- A concrete `running` instance with a live process whose heartbeat is 301
seconds old at poll time. -/
def exStaleRunningInstance : AgentInstanceS :=
  { instance_id := "agent-1-1", agent_id := "agent-1", project_id := "proj-1",
    deployment_type := "worker", status := "running", started_at := 0,
    process_id := some 42, last_heartbeat := some 0 }

/-- C4 counterexample: a `running` instance whose process is alive but whose
heartbeat is 301 seconds stale is NOT flipped to `error` by the next health
poll — the poll itself refreshes the heartbeat first, so the stale check
cannot fire and the status stays `running`. -/
theorem stale_heartbeat_alive_not_flipped_to_error :
    exStaleRunningInstance.status = "running" ∧
      300 * 1000000 < 301000000 - (exStaleRunningInstance.last_heartbeat.getD 0) ∧
      (monitorStepInstance (fun _ => true) 301000000 exStaleRunningInstance).status =
        "running" := by
  refine ⟨rfl, by decide, by decide⟩

/-- C4 (amended): for every `running` instance whose process is alive, the
monitor's health poll refreshes `last_heartbeat` to the poll time, so the
stale-heartbeat check never fires: the status remains `running` and no signal
is sent to the process (the monitor performs no process action).  The stale
check can only flip instances whose heartbeat was not refreshed, i.e. whose
process is not alive — and those the poll has already marked `stopped`. -/
theorem poll_refreshes_live_running_instance (alive : Nat → Bool) (now : Nat)
    (inst : AgentInstanceS) (pid : Nat)
    (hpid : inst.process_id = some pid) (ha : alive pid = true)
    (hrun : inst.status = "running") :
    (monitorStepInstance alive now inst).status = "running" ∧
    (monitorStepInstance alive now inst).last_heartbeat = some now ∧
    (monitorStepInstance alive now inst).process_id = some pid ∧
    (update_instance_status alive now inst).status = "running" := by
  have hupd : update_instance_status alive now inst =
      { inst with last_heartbeat := some now, status := "running" } := by
    unfold update_instance_status
    simp [hpid, ha, hrun]
  unfold monitorStepInstance
  rw [hupd]
  simp [hpid, hrun]

theorem poll_refreshes_live_running_instance_witness :
    (exStaleRunningInstance.process_id = some 42 ∧
      exStaleRunningInstance.status = "running") ∧
      ((monitorStepInstance (fun _ => true) 301000000 exStaleRunningInstance).status = "running" ∧
       (monitorStepInstance (fun _ => true) 301000000 exStaleRunningInstance).last_heartbeat =
          some 301000000 ∧
       (monitorStepInstance (fun _ => true) 301000000 exStaleRunningInstance).process_id = some 42 ∧
       (update_instance_status (fun _ => true) 301000000 exStaleRunningInstance).status =
          "running") :=
  ⟨⟨rfl, rfl⟩,
    poll_refreshes_live_running_instance (fun _ => true) 301000000 exStaleRunningInstance 42
      rfl rfl rfl⟩

/-! ## Job router (`agent_worker.py`) -/

/-- Agent configuration, after `models.AIAgent` (only the fields the modelled
operations read). -/
structure AIAgent where
  project_id : String
  name : String
  is_active : Bool := true
deriving Repr, DecidableEq

/-- A routing entry, after the `AgentInstance` dataclass of
`agent_worker.py`. -/
structure WorkerInstance where
  agent_id : String
  project_id : String
  room_name : String
  participant_count : Int
  started_at : Nat
  status : String
deriving Repr, DecidableEq

/-- Room metadata as read by `route_job` via `.get`. -/
structure RoomMetadata where
  agent_id : Option String := none
  project_id : Option String := none
  call_id : Option String := none
deriving Repr, DecidableEq

/-- The mutable state `route_job` touches: the `active_agents` routing table
(keyed by room name) and the call store. -/
structure RouterState where
  active_agents : String → Option WorkerInstance
  calls : String → Option Call

/-- Python `a or b` on an optional string: falls through on `None` and on the
empty string. -/
def pyOrStr (o : Option String) (dflt : String) : String :=
  match o with
  | some s => if s == "" then dflt else s
  | none => dflt

/-- Method `AgentWorkerManager.update_call_status` (agent_worker.py:105-116): sets
the call's status (and room binding when truthy) if the call exists; a
missing call leaves the store unchanged. -/
def awm_update_call_status (calls : String → Option Call) (call_id status : String)
    (room_name : Option String) : String → Option Call :=
  match calls call_id with
  | none => calls
  | some c =>
    let c1 := { c with call_status := status }
    let c2 := if strTruthy room_name then { c1 with room_name := room_name } else c1
    fun k => if k == call_id then some c2 else calls k

/-- Method `AgentWorkerManager.route_job` (agent_worker.py:62-103): with an
`agent_id` in the room metadata, validates the agent exists and is active
(else returns failure with no state change), marks the referenced call
`agent_assigned` when a `call_id` is given, and records a routing entry under
the room name; with no `agent_id` the job is accepted for the default agent.
Returns the routing verdict together with the updated state. -/
def route_job (agents : String → Option AIAgent) (st : RouterState)
    (room_name : String) (md : RoomMetadata) (now : Nat) : Bool × RouterState :=
  match md.agent_id with
  | some aid =>
    match agents aid with
    | none => (false, st)
    | some a =>
      if a.is_active then
        let calls1 :=
          match md.call_id with
          | some cid => awm_update_call_status st.calls cid "agent_assigned" (some room_name)
          | none => st.calls
        let entry : WorkerInstance :=
          { agent_id := aid, project_id := pyOrStr md.project_id a.project_id,
            room_name := room_name, participant_count := 0,
            started_at := now, status := "active" }
        (true,
          { active_agents := fun k =>
              if k == room_name then some entry else st.active_agents k,
            calls := calls1 })
      else (false, st)
  | none => (true, st)

/-- C7: routing a job whose metadata names a missing or inactive agent
returns failure and leaves the routing table and the call store untouched;
routing a job naming an active agent returns success, creates a routing entry
keyed by the room name, and (when a `call_id` is present and the call exists)
marks that call `agent_assigned`. -/
theorem route_job_validates_agent (agents : String → Option AIAgent)
    (st : RouterState) (room_name : String) (md : RoomMetadata) (now : Nat)
    (aid : String) (h : md.agent_id = some aid) :
    (((agents aid).elim True fun a => a.is_active = false) →
      route_job agents st room_name md now = (false, st)) ∧
    (∀ a, agents aid = some a → a.is_active = true →
      (route_job agents st room_name md now).1 = true ∧
      (route_job agents st room_name md now).2.active_agents room_name =
        some { agent_id := aid, project_id := pyOrStr md.project_id a.project_id,
               room_name := room_name, participant_count := 0,
               started_at := now, status := "active" } ∧
      (∀ cid c, md.call_id = some cid → st.calls cid = some c →
        ∃ c2, (route_job agents st room_name md now).2.calls cid = some c2 ∧
          c2.call_status = "agent_assigned")) := by
  constructor
  · intro hbad
    unfold route_job
    rcases hag : agents aid with - | a
    · simp [h, hag]
    · rw [hag] at hbad
      simp only [Option.elim] at hbad
      simp [h, hag, hbad]
  · intro a hag hact
    have hr : route_job agents st room_name md now =
        (true,
          { active_agents := fun k =>
              if k == room_name then
                some { agent_id := aid, project_id := pyOrStr md.project_id a.project_id,
                       room_name := room_name, participant_count := 0,
                       started_at := now, status := "active" }
              else st.active_agents k,
            calls :=
              match md.call_id with
              | some cid => awm_update_call_status st.calls cid "agent_assigned" (some room_name)
              | none => st.calls }) := by
      unfold route_job
      simp only [h, hag, hact, if_true]
    refine ⟨by rw [hr], by rw [hr]; simp, ?_⟩
    intro cid c hcid hcall
    rw [hr]
    simp only [hcid]
    unfold awm_update_call_status
    rw [hcall]
    dsimp only
    simp only [beq_self_eq_true, if_true]
    split <;> exact ⟨_, rfl, rfl⟩

/-- Concrete fixtures for the router: one active and one inactive agent, and
a store holding one ringing call. -/
def exAgents : String → Option AIAgent := fun aid =>
  if aid == "agent-on" then some { project_id := "proj-1", name := "A", is_active := true }
  else if aid == "agent-off" then some { project_id := "proj-1", name := "B", is_active := false }
  else none

def exRouterState : RouterState :=
  { active_agents := fun _ => none,
    calls := fun cid => if cid == "call-2" then some exUnansweredCall else none }

theorem route_job_validates_agent_witness :
    ({ agent_id := some "agent-on", project_id := none,
       call_id := some "call-2" : RoomMetadata }.agent_id = some "agent-on") ∧
      ((((exAgents "agent-on").elim True fun a => a.is_active = false) →
        route_job exAgents exRouterState "room-9"
          { agent_id := some "agent-on", project_id := none, call_id := some "call-2" } 5 =
          (false, exRouterState)) ∧
       (∀ a, exAgents "agent-on" = some a → a.is_active = true →
        (route_job exAgents exRouterState "room-9"
          { agent_id := some "agent-on", project_id := none, call_id := some "call-2" } 5).1 = true ∧
        (route_job exAgents exRouterState "room-9"
          { agent_id := some "agent-on", project_id := none, call_id := some "call-2" } 5).2.active_agents "room-9" =
          some { agent_id := "agent-on", project_id := pyOrStr none a.project_id,
                 room_name := "room-9", participant_count := 0,
                 started_at := 5, status := "active" } ∧
        (∀ cid c,
          ({ agent_id := some "agent-on", project_id := none,
             call_id := some "call-2" : RoomMetadata }.call_id = some cid) →
          exRouterState.calls cid = some c →
          ∃ c2, (route_job exAgents exRouterState "room-9"
              { agent_id := some "agent-on", project_id := none, call_id := some "call-2" } 5).2.calls cid =
              some c2 ∧ c2.call_status = "agent_assigned"))) :=
  ⟨rfl,
    route_job_validates_agent exAgents exRouterState "room-9"
      { agent_id := some "agent-on", project_id := none, call_id := some "call-2" } 5
      "agent-on" rfl⟩

/-! ## SIP no-answer watchdog (`api/routes/sip_integration.py:356-387`)

`monitor_sip_call` re-fetches the call every 5 seconds for up to 60 seconds.
The store is embedded as an oracle `getCall : Nat → Option Call` giving the
call's value at each elapsed wait time (the call may be mutated concurrently
by other handlers).  The watchdog's only write — marking a still-ringing call
`no_answer` — is returned as `some updatedCall`; `none` means the watchdog
wrote nothing and the call is left unchanged. -/

/-- The statuses on which the polling loop stops waiting. -/
def watchdogBreakStatuses : List String := ["answered", "failed", "completed"]

/-- The polling loop of `monitor_sip_call`: starting from elapsed time
`wait`, polls in 5-second increments while `wait < 60` and the call is
neither missing nor in a break status; returns the elapsed time at loop
exit.  `fuel` bounds the recursion; 13 suffices from `wait = 0`. -/
def monitorWait (getCall : Nat → Option Call) : Nat → Nat → Nat
  | wait, 0 => wait
  | wait, fuel + 1 =>
    if wait < 60 then
      match getCall wait with
      | none => wait
      | some c =>
        if c.call_status ∈ watchdogBreakStatuses then wait
        else monitorWait getCall (wait + 5) fuel
    else wait

/-- Watchdog `monitor_sip_call`: after the polling loop, if the full 60 seconds
elapsed and the call still exists in status `ringing`, it is marked
`no_answer` with outcome `"No answer"` and `ended_at` stamped; otherwise
nothing is written. -/
def monitor_sip_call (getCall : Nat → Option Call) (now : Nat) : Option Call :=
  let w := monitorWait getCall 0 13
  if 60 ≤ w then
    match getCall w with
    | some c =>
      if c.call_status == "ringing" then
        some { c with call_status := "no_answer", call_outcome := some "No answer",
                      ended_at := some now }
      else none
    | none => none
  else none

/-- The loop exits on the 5-second grid, never past 60. -/
theorem monitorWait_le (getCall : Nat → Option Call) (fuel wait : Nat)
    (h5 : wait % 5 = 0) (h60 : wait ≤ 60) :
    monitorWait getCall wait fuel % 5 = 0 ∧ monitorWait getCall wait fuel ≤ 60 := by
  induction fuel generalizing wait with
  | zero => exact ⟨h5, h60⟩
  | succ n ih =>
    unfold monitorWait
    by_cases hlt : wait < 60
    · simp only [hlt, if_true]
      rcases getCall wait with - | c
      · exact ⟨h5, h60⟩
      · dsimp only
        by_cases hbr : c.call_status ∈ watchdogBreakStatuses
        · simp only [hbr, if_true]
          exact ⟨h5, h60⟩
        · simp only [hbr, if_false]
          refine ih (wait + 5) (by omega) (by omega)
    · simp only [hlt, if_false]
      exact ⟨h5, h60⟩

/-- If the call stays present and in a non-break status at every poll, the
loop runs the full 60 seconds. -/
theorem monitorWait_runs_out (getCall : Nat → Option Call) (fuel wait : Nat)
    (h5 : wait % 5 = 0) (h60 : wait ≤ 60) (hfuel : 60 ≤ wait + 5 * fuel)
    (hring : ∀ w, wait ≤ w → w ≤ 60 →
      ∃ c, getCall w = some c ∧ c.call_status ∉ watchdogBreakStatuses) :
    monitorWait getCall wait fuel = 60 := by
  induction fuel generalizing wait with
  | zero => unfold monitorWait; omega
  | succ n ih =>
    unfold monitorWait
    by_cases hlt : wait < 60
    · simp only [hlt, if_true]
      obtain ⟨c, hc, hnb⟩ := hring wait le_rfl (by omega)
      rw [hc]
      dsimp only
      simp only [hnb, if_false]
      exact ih (wait + 5) (by omega) (by omega) (by omega)
        (fun w hw1 hw2 => hring w (by omega) hw2)
    · simp only [hlt, if_false]
      omega

/-- C8: the no-answer watchdog polls in 5-second increments for up to 60
seconds.  If the call exists and is still `ringing` at every poll through the
60-second timeout, the watchdog marks it `no_answer` with outcome
`"No answer"` and stamps `ended_at`; and whenever the call has reached
`answered`, `failed` or `completed` from some pre-timeout moment on, the
watchdog writes nothing at all. -/
theorem watchdog_marks_only_still_ringing (getCall : Nat → Option Call) (now : Nat) :
    ((∀ w, w ≤ 60 → ∃ c, getCall w = some c ∧ c.call_status = "ringing") →
      ∃ c, getCall 60 = some c ∧
        monitor_sip_call getCall now =
          some { c with call_status := "no_answer", call_outcome := some "No answer",
                        ended_at := some now }) ∧
    ((∃ w0, w0 ≤ 60 ∧ ∀ w, w0 ≤ w → w ≤ 60 →
        ∃ c, getCall w = some c ∧ c.call_status ∈ watchdogBreakStatuses) →
      monitor_sip_call getCall now = none) := by
  constructor
  · intro hring
    obtain ⟨c60, hc60, hr60⟩ := hring 60 le_rfl
    refine ⟨c60, hc60, ?_⟩
    have hw : monitorWait getCall 0 13 = 60 := by
      refine monitorWait_runs_out getCall 13 0 rfl (by omega) (by omega) ?_
      intro w hw1 hw2
      obtain ⟨c, hc, hr⟩ := hring w hw2
      exact ⟨c, hc, by simp [watchdogBreakStatuses, hr]⟩
    unfold monitor_sip_call
    rw [hw]
    simp only [le_refl, if_true, hc60]
    simp [hr60]
  · rintro ⟨w0, hw0, hterm⟩
    unfold monitor_sip_call
    have hle := monitorWait_le getCall 13 0 rfl (by omega)
    by_cases h60 : 60 ≤ monitorWait getCall 0 13
    · have heq : monitorWait getCall 0 13 = 60 := by omega
      rw [heq]
      simp only [le_refl, if_true]
      obtain ⟨c, hc, hbr⟩ := hterm 60 hw0 le_rfl
      rw [hc]
      have : (c.call_status == "ringing") = false := by
        rcases (by simpa [watchdogBreakStatuses] using hbr :
            c.call_status = "answered" ∨ c.call_status = "failed" ∨
              c.call_status = "completed") with h | h | h <;> simp [h]
      simp [this]
    · simp only [if_neg h60]

/-- A store in which the call is ringing, unchanged, at every poll. -/
def exRingingOracle : Nat → Option Call := fun _ => some exUnansweredCall

theorem watchdog_marks_only_still_ringing_witness :
    ∃ c, exRingingOracle 60 = some c ∧
      monitor_sip_call exRingingOracle 99000000 =
        some { c with call_status := "no_answer", call_outcome := some "No answer",
                      ended_at := some 99000000 } :=
  (watchdog_marks_only_still_ringing exRingingOracle 99000000).1
    (fun _ _ => ⟨exUnansweredCall, rfl, rfl⟩)

/-! ## Scaling controller (`api/routes/agent_management.py:174-236`) -/

/-- Membership test `inst.status in ["starting", "running"]` used by the
scaling controller and the deploy duplicate check. -/
def isScalableStatus (s : String) : Bool := s == "starting" || s == "running"

/-- Selection `current_instances` (agent_management.py:187-190): the registry values
belonging to the agent whose status is `starting` or `running`. -/
def currentInstances (reg : Registry) (aid : String) : List AgentInstanceS :=
  (reg.map Prod.snd).filter fun i => i.agent_id == aid && isScalableStatus i.status

/-- Stable insertion of an instance into a list sorted by `started_at`
ascending: the embedding of Python `sorted(..., key=lambda x: x.started_at)`
(a stable ascending sort). -/
def insertByStarted (x : AgentInstanceS) : List AgentInstanceS → List AgentInstanceS
  | [] => [x]
  | y :: ys =>
    if x.started_at ≤ y.started_at then x :: y :: ys else y :: insertByStarted x ys

/-- Insertion sort by `started_at` ascending. -/
def sortByStarted : List AgentInstanceS → List AgentInstanceS
  | [] => []
  | x :: xs => insertByStarted x (sortByStarted xs)

/-- Selection `instances_to_stop` (agent_management.py:219-222): the oldest `k`
current instances, by `started_at` ascending. -/
def selectInstancesToStop (current : List AgentInstanceS) (k : Nat) :
    List AgentInstanceS :=
  (sortByStarted current).take k

theorem insertByStarted_perm (x : AgentInstanceS) (l : List AgentInstanceS) :
    List.Perm (insertByStarted x l) (x :: l) := by
  induction l with
  | nil => rfl
  | cons y ys ih =>
    unfold insertByStarted
    by_cases hc : x.started_at ≤ y.started_at
    · simp [hc]
    · simp only [hc, if_false]
      exact (ih.cons y).trans (List.Perm.swap x y ys)

theorem sortByStarted_perm (l : List AgentInstanceS) :
    List.Perm (sortByStarted l) l := by
  induction l with
  | nil => rfl
  | cons x xs ih =>
    exact (insertByStarted_perm x (sortByStarted xs)).trans (ih.cons x)

/-- Ascending order on `started_at`. -/
def startedLE (a b : AgentInstanceS) : Prop := a.started_at ≤ b.started_at

theorem insertByStarted_pairwise (x : AgentInstanceS) (l : List AgentInstanceS)
    (h : l.Pairwise startedLE) :
    (insertByStarted x l).Pairwise startedLE := by
  induction l with
  | nil => simp [insertByStarted, startedLE]
  | cons y ys ih =>
    rw [List.pairwise_cons] at h
    obtain ⟨hy, hys⟩ := h
    unfold insertByStarted
    by_cases hc : x.started_at ≤ y.started_at
    · simp only [hc, if_true]
      rw [List.pairwise_cons]
      refine ⟨?_, List.pairwise_cons.mpr ⟨hy, hys⟩⟩
      intro z hz
      rcases List.mem_cons.mp hz with hz | hz
      · subst hz; exact hc
      · exact le_trans hc (hy z hz)
    · simp only [hc, if_false]
      rw [List.pairwise_cons]
      refine ⟨?_, ih hys⟩
      intro z hz
      have hz' := (insertByStarted_perm x ys).mem_iff.mp hz
      rcases List.mem_cons.mp hz' with hz' | hz'
      · subst hz'
        exact le_of_not_le hc
      · exact hy z hz'

theorem sortByStarted_pairwise (l : List AgentInstanceS) :
    (sortByStarted l).Pairwise startedLE := by
  induction l with
  | nil => simp [sortByStarted]
  | cons x xs ih => exact insertByStarted_pairwise x (sortByStarted xs) ih

/-- C6: when the current instances of an agent have pairwise distinct
`started_at` times, scaling down by `k` selects exactly the `k` oldest for
stopping: the selection has length `k`, picks only current instances, and
every selected instance started strictly earlier than every unselected
current instance.  (With start times `t1 < t2 < t3` and `k = 1`, only the
`t1` instance is selected.) -/
theorem scale_down_selects_oldest (current : List AgentInstanceS) (k : Nat)
    (hk : k ≤ current.length)
    (hd : (current.map (fun i => i.started_at)).Nodup) :
    (selectInstancesToStop current k).length = k ∧
    (∀ x ∈ selectInstancesToStop current k, x ∈ current) ∧
    (∀ x ∈ selectInstancesToStop current k, ∀ y ∈ current,
      y ∉ selectInstancesToStop current k → x.started_at < y.started_at) := by
  have hperm := sortByStarted_perm current
  have hsorted := sortByStarted_pairwise current
  have hmemsort : ∀ z, z ∈ sortByStarted current ↔ z ∈ current :=
    fun z => hperm.mem_iff
  refine ⟨?_, ?_, ?_⟩
  · rw [selectInstancesToStop, List.length_take, hperm.length_eq]
    omega
  · intro x hx
    exact (hmemsort x).mp (List.take_subset k _ hx)
  · intro x hx y hy hyn
    have hxs : x ∈ sortByStarted current := List.take_subset k _ hx
    have hxc : x ∈ current := (hmemsort x).mp hxs
    have hys : y ∈ sortByStarted current := (hmemsort y).mpr hy
    have hsplit : sortByStarted current =
        List.take k (sortByStarted current) ++ List.drop k (sortByStarted current) :=
      (List.take_append_drop k _).symm
    have hyd : y ∈ List.drop k (sortByStarted current) := by
      rw [hsplit] at hys
      rcases List.mem_append.mp hys with h | h
      · exact absurd h hyn
      · exact h
    have hle : startedLE x y := by
      have := hsplit ▸ hsorted
      rw [List.pairwise_append] at this
      exact this.2.2 x hx y hyd
    have hne : x.started_at ≠ y.started_at := by
      intro heq
      have hxy : x = y :=
        List.inj_on_of_nodup_map hd hxc hy heq
      exact hyn (hxy ▸ hx)
    exact lt_of_le_of_ne hle hne

/-- Three concrete current instances with start times 10 < 20 < 30. -/
def exOld : AgentInstanceS :=
  { instance_id := "a-0", agent_id := "a", project_id := "p",
    deployment_type := "worker", status := "running", started_at := 10,
    process_id := some 50, last_heartbeat := some 10 }

def exMid : AgentInstanceS :=
  { instance_id := "a-1", agent_id := "a", project_id := "p",
    deployment_type := "worker", status := "running", started_at := 20,
    process_id := some 51, last_heartbeat := some 20 }

def exNew : AgentInstanceS :=
  { instance_id := "a-2", agent_id := "a", project_id := "p",
    deployment_type := "worker", status := "starting", started_at := 30,
    process_id := some 52, last_heartbeat := some 30 }

theorem scale_down_selects_oldest_witness :
    (1 ≤ [exMid, exOld, exNew].length ∧
      ([exMid, exOld, exNew].map (fun i => i.started_at)).Nodup) ∧
      ((selectInstancesToStop [exMid, exOld, exNew] 1).length = 1 ∧
       (∀ x ∈ selectInstancesToStop [exMid, exOld, exNew] 1, x ∈ [exMid, exOld, exNew]) ∧
       (∀ x ∈ selectInstancesToStop [exMid, exOld, exNew] 1,
          ∀ y ∈ [exMid, exOld, exNew],
          y ∉ selectInstancesToStop [exMid, exOld, exNew] 1 →
            x.started_at < y.started_at)) ∧
      selectInstancesToStop [exMid, exOld, exNew] 1 = [exOld] :=
  ⟨⟨by decide, by decide⟩,
    scale_down_selects_oldest [exMid, exOld, exNew] 1 (by decide) (by decide),
    by decide⟩

/-- Instance id generated by the scale-up branch
(agent_management.py:210): `f"{agent_id}-scale-{timestamp}-{i}"` with `ts`
the whole-second timestamp. -/
def scaleInstanceId (aid : String) (ts i : Nat) : String :=
  aid ++ "-scale-" ++ toString ts ++ "-" ++ toString i

/-- The record created by `deploy_agent_instance`
(agent_management.py:377-424): status `starting`, fresh heartbeat, the pid of
the spawned process.  (`scale_agent` deploys with default deployment type
`"worker"`.) -/
def deployedInstance (aid project_id iid : String) (now pid : Nat) :
    AgentInstanceS :=
  { instance_id := iid, agent_id := aid, project_id := project_id,
    deployment_type := "worker", status := "starting", started_at := now,
    process_id := some pid, last_heartbeat := some now }

/-- Python dict assignment `agent_instances[k] = v`: overwrite in place when
the key exists, else append. -/
def dictInsert (reg : Registry) (k : String) (v : AgentInstanceS) : Registry :=
  if reg.any fun p => p.1 == k then
    reg.map fun p => if p.1 == k then (k, v) else p
  else reg ++ [(k, v)]

/-- The entries the scale-up branch adds: `k` deployments with generated
ids. -/
def scaleUpEntries (aid project_id : String) (k ts now pidBase : Nat) : Registry :=
  (List.range k).map fun i =>
    (scaleInstanceId aid ts i,
     deployedInstance aid project_id (scaleInstanceId aid ts i) now (pidBase + i))

/-- The net registry effect of a completed `stop_agent_instance`
(agent_management.py:431-468): the instance is re-marked `stopping` (see
`stopMarkStopping`), signalled, marked `stopped` (see `stopMarkStopped`) and,
after the grace delay, deleted from the registry; an absent id is a no-op.
The net effect on the registry once the queued task has run to completion is
the deletion of the entry. -/
def stop_agent_instance (reg : Registry) (iid : String) : Registry :=
  reg.filter fun p => p.1 != iid

/-- Handler `scale_agent` (agent_management.py:174-236): rejects negative targets;
deploys `target - current` instances when below target (requiring the agent
configuration to exist); queues stops for the oldest `current - target`
current instances when above target (modelled as run to completion, see the
module conventions); otherwise no change.  `none` embeds the HTTP error
paths (400/404 wrapped in 500). -/
def scale_agent (agents : String → Option AIAgent) (reg : Registry)
    (aid : String) (target : Int) (ts now pidBase : Nat) : Option Registry :=
  if target < 0 then none
  else if (currentInstances reg aid).length < target.toNat then
    match agents aid with
    | none => none
    | some a =>
      some ((scaleUpEntries aid a.project_id
          (target.toNat - (currentInstances reg aid).length) ts now pidBase).foldl
        (fun r p => dictInsert r p.1 p.2) reg)
  else if target.toNat < (currentInstances reg aid).length then
    some ((selectInstancesToStop (currentInstances reg aid)
        ((currentInstances reg aid).length - target.toNat)).foldl
      (fun r i => stop_agent_instance r i.instance_id) reg)
  else some reg

/-- Handler `get_agent_instances` (agent_management.py:150-171) for a given agent id:
the registry values for that agent, each health-refreshed through
`update_instance_status` before being returned. -/
def get_agent_instances (alive : Nat → Bool) (now : Nat) (reg : Registry)
    (aid : String) : List AgentInstanceS :=
  ((reg.map Prod.snd).filter fun i => i.agent_id == aid).map
    (update_instance_status alive now)

/-- Registry well-formedness, maintained by the supervisor: keys are unique,
each entry is stored under its own instance id, and every deployed instance
has a recorded pid (`deploy_agent_instance` always sets one). -/
abbrev RegWF (reg : Registry) : Prop :=
  (reg.map Prod.fst).Nodup ∧
    ∀ p ∈ reg, p.2.instance_id = p.1 ∧ p.2.process_id.isSome = true

/-- With a live process on record, the health poll leaves membership in
{starting, running} unchanged: it can only promote `starting` to `running`. -/
theorem update_preserves_scalable (alive : Nat → Bool) (now : Nat)
    (inst : AgentInstanceS) (halive : ∀ pid, alive pid = true)
    (hpid : inst.process_id.isSome = true) :
    isScalableStatus (update_instance_status alive now inst).status =
      isScalableStatus inst.status := by
  obtain ⟨pid, hp⟩ := Option.isSome_iff_exists.mp hpid
  unfold update_instance_status
  rw [hp]
  simp only [halive pid, if_true]
  by_cases hs : (inst.status == "starting") = true
  · have hst : inst.status = "starting" := by simpa using hs
    by_cases ht : (decide (30 * 1000000 < now - inst.started_at)) = true
    · simp [hs, ht, hst, isScalableStatus]
    · simp only [Bool.eq_false_iff.mpr ht]
      simp [hs, hst, isScalableStatus]
  · simp only [Bool.eq_false_iff.mpr hs]
    simp

/-- Health-refreshing the returned instances does not change how many are in
{starting, running}, given live processes. -/
theorem list_active_count (alive : Nat → Bool) (now : Nat) (reg : Registry)
    (aid : String) (halive : ∀ pid, alive pid = true)
    (hpid : ∀ p ∈ reg, p.2.process_id.isSome = true) :
    ((get_agent_instances alive now reg aid).filter fun i =>
        isScalableStatus i.status).length = (currentInstances reg aid).length := by
  unfold get_agent_instances currentInstances
  rw [List.filter_map, List.length_map, List.filter_filter]
  congr 1
  apply List.filter_congr
  intro i hi
  obtain ⟨p, hpm, hps⟩ := List.mem_map.mp hi
  have hips : i.process_id.isSome = true := hps ▸ hpid p hpm
  have hupd := update_preserves_scalable alive now i halive hips
  simp only [Function.comp]
  rw [hupd, Bool.and_comm]

theorem currentInstances_append (l1 l2 : Registry) (aid : String) :
    currentInstances (l1 ++ l2) aid =
      currentInstances l1 aid ++ currentInstances l2 aid := by
  simp [currentInstances]

/-- Length of a filter that keeps every element. -/
theorem length_filter_all {α : Type} (p : α → Bool) (l : List α)
    (h : ∀ a ∈ l, p a = true) : (l.filter p).length = l.length := by
  rw [List.filter_eq_self.mpr h]

/-- Every scale-up entry is a `starting` instance of the scaled agent. -/
theorem scaleUpEntries_active_count (aid pj : String) (k ts now pidBase : Nat) :
    (currentInstances (scaleUpEntries aid pj k ts now pidBase) aid).length = k := by
  unfold currentInstances scaleUpEntries
  rw [List.map_map]
  refine Eq.trans (length_filter_all _ _ ?_) ?_
  · intro i hi
    obtain ⟨j, hj, rfl⟩ := List.mem_map.mp hi
    simp [Function.comp, deployedInstance, isScalableStatus]
  · rw [List.length_map, List.length_range]

/-- Scale-up entry keys are pairwise distinct when the generated ids are. -/
theorem scaleUpEntries_keys_nodup (aid pj : String) (k ts now pidBase : Nat)
    (hinj : ∀ i j, i < k → j < k →
      scaleInstanceId aid ts i = scaleInstanceId aid ts j → i = j) :
    ((scaleUpEntries aid pj k ts now pidBase).map Prod.fst).Nodup := by
  unfold scaleUpEntries
  rw [List.map_map]
  refine List.Nodup.map_on ?_ (List.nodup_range k)
  intro x hx y hy hxy
  exact hinj x y (List.mem_range.mp hx) (List.mem_range.mp hy) hxy

/-- Assigning fresh keys into the registry dictionary appends the new
entries in order. -/
theorem foldl_dictInsert_append (news reg : Registry)
    (hfresh : ∀ p ∈ news, ∀ q ∈ reg, q.1 ≠ p.1)
    (hnodup : (news.map Prod.fst).Nodup) :
    news.foldl (fun r p => dictInsert r p.1 p.2) reg = reg ++ news := by
  induction news generalizing reg with
  | nil => simp
  | cons p ps ih =>
    rw [List.foldl_cons]
    have hany : (reg.any fun q => q.1 == p.1) = false := by
      rw [List.any_eq_false]
      intro q hq
      simpa using hfresh p (List.mem_cons_self p ps) q hq
    have hins : dictInsert reg p.1 p.2 = reg ++ [p] := by
      unfold dictInsert
      rw [hany]
      simp
    rw [hins]
    rw [List.map_cons, List.nodup_cons] at hnodup
    have hfresh' : ∀ r ∈ ps, ∀ q ∈ reg ++ [p], q.1 ≠ r.1 := by
      intro r hr q hq
      rcases List.mem_append.mp hq with hq | hq
      · exact hfresh r (List.mem_cons_of_mem p hr) q hq
      · rw [List.mem_singleton.mp hq]
        intro hqr
        exact hnodup.1 (hqr ▸ List.mem_map_of_mem Prod.fst hr)
    rw [ih (reg ++ [p]) hfresh' hnodup.2, List.append_assoc]
    rfl

/-- Deleting a registered current instance removes exactly one entry from the
current count. -/
theorem countActive_erase (reg : Registry) (aid : String) (x : AgentInstanceS)
    (hnd : (reg.map Prod.fst).Nodup)
    (hmem : (x.instance_id, x) ∈ reg)
    (hpred : (x.agent_id == aid && isScalableStatus x.status) = true) :
    (currentInstances (stop_agent_instance reg x.instance_id) aid).length =
      (currentInstances reg aid).length - 1 ∧
    1 ≤ (currentInstances reg aid).length := by
  obtain ⟨l1, l2, hsplit⟩ := List.append_of_mem hmem
  subst hsplit
  rw [List.map_append, List.map_cons] at hnd
  rw [List.nodup_append] at hnd
  obtain ⟨-, hnd2, hdisj⟩ := hnd
  rw [List.nodup_cons] at hnd2
  have h1 : ∀ q ∈ l1, (q.1 != x.instance_id) = true := by
    intro q hq
    have : q.1 ∉ x.instance_id :: l2.map Prod.fst :=
      fun hc => hdisj (List.mem_map_of_mem Prod.fst hq) hc
    simp only [List.mem_cons] at this
    simp only [bne_iff_ne, ne_eq]
    exact fun h => this (Or.inl h)
  have h2 : ∀ q ∈ l2, (q.1 != x.instance_id) = true := by
    intro q hq
    have : x.instance_id ∉ l2.map Prod.fst := hnd2.1
    have hne : q.1 ≠ x.instance_id := by
      intro hc
      exact this (hc ▸ List.mem_map_of_mem Prod.fst hq)
    simp [hne]
  have herase : stop_agent_instance (l1 ++ (x.instance_id, x) :: l2) x.instance_id
      = l1 ++ l2 := by
    unfold stop_agent_instance
    rw [List.filter_append, List.filter_cons]
    simp only [bne_self_eq_false]
    rw [List.filter_eq_self.mpr h1, List.filter_eq_self.mpr h2]
    simp
  rw [herase]
  constructor
  · rw [currentInstances_append, currentInstances_append]
    have hc : currentInstances ((x.instance_id, x) :: l2) aid =
        x :: currentInstances l2 aid := by
      unfold currentInstances
      rw [List.map_cons, List.filter_cons]
      simp [hpred]
    rw [hc]
    simp only [List.length_append, List.length_cons]
    omega
  · rw [currentInstances_append]
    have hx : x ∈ currentInstances ((x.instance_id, x) :: l2) aid := by
      unfold currentInstances
      rw [List.map_cons]
      exact List.mem_filter.mpr ⟨List.mem_cons_self x _, hpred⟩
    have := List.length_pos_of_mem hx
    simp only [List.length_append]
    omega

/-- Stopping a list of distinct registered current instances lowers the
current count by their number. -/
theorem countActive_foldl_stop (L : List AgentInstanceS) (reg : Registry)
    (aid : String)
    (hnd : (reg.map Prod.fst).Nodup)
    (hLnd : (L.map fun i => i.instance_id).Nodup)
    (hLm : ∀ x ∈ L, (x.instance_id, x) ∈ reg ∧
      (x.agent_id == aid && isScalableStatus x.status) = true) :
    (currentInstances
        (L.foldl (fun r i => stop_agent_instance r i.instance_id) reg) aid).length =
      (currentInstances reg aid).length - L.length := by
  induction L generalizing reg with
  | nil => simp
  | cons x xs ih =>
    rw [List.foldl_cons]
    obtain ⟨hmem, hpred⟩ := hLm x (List.mem_cons_self x xs)
    obtain ⟨hcnt, hge⟩ := countActive_erase reg aid x hnd hmem hpred
    rw [List.map_cons, List.nodup_cons] at hLnd
    have hnd' : ((stop_agent_instance reg x.instance_id).map Prod.fst).Nodup := by
      unfold stop_agent_instance
      exact ((List.filter_sublist reg).map Prod.fst).nodup hnd
    have hxs : ∀ y ∈ xs, (y.instance_id, y) ∈ stop_agent_instance reg x.instance_id ∧
        (y.agent_id == aid && isScalableStatus y.status) = true := by
      intro y hy
      obtain ⟨hm, hp⟩ := hLm y (List.mem_cons_of_mem x hy)
      refine ⟨?_, hp⟩
      unfold stop_agent_instance
      refine List.mem_filter.mpr ⟨hm, ?_⟩
      have hneq : y.instance_id ≠ x.instance_id := by
        intro hc
        exact hLnd.1 (hc ▸ List.mem_map_of_mem (fun i : AgentInstanceS => i.instance_id) hy)
      simp [hneq]
    rw [ih (stop_agent_instance reg x.instance_id) hnd' hLnd.2 hxs, hcnt]
    rw [List.length_cons]
    omega

/-- Entries surviving the queued stops were in the registry before. -/
theorem foldl_stop_subset (L : List AgentInstanceS) (reg : Registry) :
    ∀ p ∈ L.foldl (fun r i => stop_agent_instance r i.instance_id) reg, p ∈ reg := by
  induction L generalizing reg with
  | nil => exact fun p hp => hp
  | cons x xs ih =>
    intro p hp
    rw [List.foldl_cons] at hp
    have := ih (stop_agent_instance reg x.instance_id) p hp
    exact List.mem_of_mem_filter this

/-- The instance ids of the current instances are distinct in a well-formed
registry. -/
theorem currentInstances_ids_nodup (reg : Registry) (aid : String)
    (hwf : RegWF reg) :
    ((currentInstances reg aid).map fun i => i.instance_id).Nodup := by
  obtain ⟨hnd, hC⟩ := hwf
  have h1 : ((reg.map Prod.snd).map fun i => i.instance_id).Nodup := by
    rw [List.map_map]
    have heq : reg.map ((fun i => i.instance_id) ∘ Prod.snd) = reg.map Prod.fst :=
      List.map_congr_left fun p hp => (hC p hp).1
    rw [heq]
    exact hnd
  exact ((List.filter_sublist _).map fun i : AgentInstanceS => i.instance_id).nodup h1

/-- Every current instance is stored in the registry under its own id and
satisfies the scaling filter. -/
theorem currentInstances_mem_pairs (reg : Registry) (aid : String)
    (hC : ∀ p ∈ reg, p.2.instance_id = p.1 ∧ p.2.process_id.isSome = true) :
    ∀ x ∈ currentInstances reg aid, (x.instance_id, x) ∈ reg ∧
      (x.agent_id == aid && isScalableStatus x.status) = true := by
  intro x hx
  rw [currentInstances, List.mem_filter] at hx
  obtain ⟨hm, hp⟩ := hx
  refine ⟨?_, hp⟩
  obtain ⟨p, hpmem, hps⟩ := List.mem_map.mp hm
  have hkey := (hC p hpmem).1
  have : (x.instance_id, x) = p := by
    cases p with
    | mk k v =>
      cases hps
      simp only at hkey
      rw [hkey]
  exact this ▸ hpmem

/-- C3: after `scale(agentId, N)` succeeds (all deploys succeed, queued stops
run to completion, generated instance ids are fresh and distinct, processes
stay alive), an immediately following `listInstances(agentId)` restricted to
statuses {starting, running} contains exactly `N` entries — for scale-up,
scale-down and no-change alike. -/
theorem scale_then_list_reports_target (agents : String → Option AIAgent)
    (alive : Nat → Bool) (reg reg' : Registry) (aid : String) (target : Int)
    (ts now pidBase now2 : Nat)
    (halive : ∀ pid, alive pid = true)
    (hwf : RegWF reg)
    (hfresh : ∀ i, i < target.toNat - (currentInstances reg aid).length →
      ∀ q ∈ reg, q.1 ≠ scaleInstanceId aid ts i)
    (hinj : ∀ i j, i < target.toNat - (currentInstances reg aid).length →
      j < target.toNat - (currentInstances reg aid).length →
      scaleInstanceId aid ts i = scaleInstanceId aid ts j → i = j)
    (hsc : scale_agent agents reg aid target ts now pidBase = some reg') :
    ((get_agent_instances alive now2 reg' aid).filter fun i =>
        isScalableStatus i.status).length = target.toNat := by
  obtain ⟨hnd, hC⟩ := hwf
  unfold scale_agent at hsc
  by_cases hneg : target < 0
  · rw [if_pos hneg] at hsc
    exact absurd hsc (by simp)
  rw [if_neg hneg] at hsc
  by_cases hup : (currentInstances reg aid).length < target.toNat
  · rw [if_pos hup] at hsc
    rcases hag : agents aid with - | a
    · rw [hag] at hsc
      simp at hsc
    rw [hag] at hsc
    simp only [Option.some.injEq] at hsc
    have hfr : ∀ p ∈ scaleUpEntries aid a.project_id
        (target.toNat - (currentInstances reg aid).length) ts now pidBase,
        ∀ q ∈ reg, q.1 ≠ p.1 := by
      intro p hp q hq
      obtain ⟨i, hi, rfl⟩ := List.mem_map.mp hp
      exact hfresh i (List.mem_range.mp hi) q hq
    have hnodup := scaleUpEntries_keys_nodup aid a.project_id
      (target.toNat - (currentInstances reg aid).length) ts now pidBase hinj
    have hfold := foldl_dictInsert_append _ reg hfr hnodup
    rw [hfold] at hsc
    have hreg' : reg' = reg ++ scaleUpEntries aid a.project_id
        (target.toNat - (currentInstances reg aid).length) ts now pidBase := hsc.symm
    subst hreg'
    have hpids : ∀ p ∈ reg ++ scaleUpEntries aid a.project_id
        (target.toNat - (currentInstances reg aid).length) ts now pidBase,
        p.2.process_id.isSome = true := by
      intro p hp
      rcases List.mem_append.mp hp with hp | hp
      · exact (hC p hp).2
      · obtain ⟨i, hi, rfl⟩ := List.mem_map.mp hp
        rfl
    rw [list_active_count alive now2 _ aid halive hpids]
    rw [currentInstances_append, List.length_append, scaleUpEntries_active_count]
    omega
  rw [if_neg hup] at hsc
  by_cases hdown : target.toNat < (currentInstances reg aid).length
  · rw [if_pos hdown] at hsc
    have hreg' : reg' = (selectInstancesToStop (currentInstances reg aid)
        ((currentInstances reg aid).length - target.toNat)).foldl
        (fun r i => stop_agent_instance r i.instance_id) reg :=
      (Option.some_inj.mp hsc).symm
    subst hreg'
    have hids := currentInstances_ids_nodup reg aid ⟨hnd, hC⟩
    have hpermids : List.Perm
        ((sortByStarted (currentInstances reg aid)).map
          fun i : AgentInstanceS => i.instance_id)
        ((currentInstances reg aid).map fun i : AgentInstanceS => i.instance_id) :=
      (sortByStarted_perm (currentInstances reg aid)).map _
    have hsortids := hpermids.nodup_iff.mpr hids
    have htakeids : ((selectInstancesToStop (currentInstances reg aid)
        ((currentInstances reg aid).length - target.toNat)).map
          fun i : AgentInstanceS => i.instance_id).Nodup := by
      refine List.Nodup.sublist ?_ hsortids
      exact (List.take_sublist _ _).map _
    have hLm : ∀ x ∈ selectInstancesToStop (currentInstances reg aid)
        ((currentInstances reg aid).length - target.toNat),
        (x.instance_id, x) ∈ reg ∧
          (x.agent_id == aid && isScalableStatus x.status) = true := by
      intro x hx
      have hxs : x ∈ sortByStarted (currentInstances reg aid) :=
        List.take_subset _ _ hx
      have hxc : x ∈ currentInstances reg aid :=
        (sortByStarted_perm (currentInstances reg aid)).mem_iff.mp hxs
      exact currentInstances_mem_pairs reg aid hC x hxc
    have hcount := countActive_foldl_stop _ reg aid hnd htakeids hLm
    have hpids : ∀ p ∈ (selectInstancesToStop (currentInstances reg aid)
        ((currentInstances reg aid).length - target.toNat)).foldl
        (fun r i => stop_agent_instance r i.instance_id) reg,
        p.2.process_id.isSome = true := by
      intro p hp
      exact (hC p (foldl_stop_subset _ reg p hp)).2
    rw [list_active_count alive now2 _ aid halive hpids, hcount]
    have hlen : (selectInstancesToStop (currentInstances reg aid)
        ((currentInstances reg aid).length - target.toNat)).length =
        (currentInstances reg aid).length - target.toNat := by
      rw [selectInstancesToStop, List.length_take,
        (sortByStarted_perm (currentInstances reg aid)).length_eq]
      omega
    rw [hlen]
    omega
  · rw [if_neg hdown] at hsc
    have hreg' : reg' = reg := (Option.some_inj.mp hsc).symm
    rw [hreg']
    rw [list_active_count alive now2 reg aid halive fun p hp => (hC p hp).2]
    omega

/-- Fixtures for the scaling scenario: one agent `"a"` with a single running
instance, scaled up to 2. -/
def exAgentsA : String → Option AIAgent := fun s =>
  if s == "a" then some { project_id := "p", name := "A", is_active := true }
  else none

def exReg1 : Registry := [("a-0", exOld)]

def exReg2 : Registry := exReg1 ++ scaleUpEntries "a" "p" 1 7 100 60

theorem scale_then_list_reports_target_witness :
    (RegWF exReg1 ∧
      scale_agent exAgentsA exReg1 "a" 2 7 100 60 = some exReg2) ∧
      ((get_agent_instances (fun _ => true) 999 exReg2 "a").filter fun i =>
          isScalableStatus i.status).length = (2 : Int).toNat :=
  ⟨⟨⟨by decide, by decide⟩, by decide⟩,
    scale_then_list_reports_target exAgentsA (fun _ => true) exReg1 exReg2 "a" 2 7 100 60 999
      (fun _ => rfl)
      ⟨by decide, by decide⟩
      (by
        intro i hi q hq
        have hlen : (2 : Int).toNat - (currentInstances exReg1 "a").length = 1 := by decide
        rw [hlen] at hi
        have hi0 : i = 0 := by omega
        subst hi0
        have hq' : q = ("a-0", exOld) := by simpa [exReg1] using hq
        rw [hq']
        decide)
      (by
        intro i j hi hj _
        have hlen : (2 : Int).toNat - (currentInstances exReg1 "a").length = 1 := by decide
        rw [hlen] at hi hj
        omega)
      (by decide)⟩

end CallCenter
